import Mathlib

/-!
Verification of the Google Drive uploader (`src/uploader.ts`) of
obsidian-embedder: a shallow embedding of the upload pipeline, folder
resolution, query escaping and base64 encoding, with theorems about the
progress-stage contract, error handling, caching and encoding round-trips.
-/

namespace Embedder

/-! ### Character constants (quote, backslash, base64 padding) -/

def quoteChar : Char := Char.ofNat 39

def backslashChar : Char := Char.ofNat 92

def padChar : Char := Char.ofNat 61

/-! ### Base64, mirroring `arrayBufferToBase64`

`arrayBufferToBase64` slices the byte array into 8192-byte chunks, turns
each chunk into a latin-1 string with `String.fromCharCode` (identity on
byte values), joins the chunk strings and applies `btoa`.  Bytes are
modelled as `Nat` values below 256; the intermediate latin-1 string is the
byte list itself, so `btoa` is modelled directly on byte lists. -/

def b64Alphabet : List Char :=
  "ABCDEFGHIJKLMNOPQRSTUVWXYZabcdefghijklmnopqrstuvwxyz0123456789+/".data

def b64Char (n : Nat) : Char := b64Alphabet.getD n (Char.ofNat 65)

def b64IndexAux : List Char → Char → Nat → Option Nat
  | [], _, _ => none
  | a :: rest, c, i => if a = c then some i else b64IndexAux rest c (i + 1)

def b64Index (c : Char) : Option Nat := b64IndexAux b64Alphabet c 0

/-- The `btoa` primitive on byte values: 3 bytes become 4 alphabet
characters, with `=` padding for a 1- or 2-byte tail. -/
def btoa : List Nat → List Char
  | [] => []
  | [a] => [b64Char (a / 4), b64Char (a % 4 * 16), padChar, padChar]
  | [a, b] => [b64Char (a / 4), b64Char (a % 4 * 16 + b / 16), b64Char (b % 16 * 4), padChar]
  | a :: b :: c :: rest =>
      b64Char (a / 4) :: b64Char (a % 4 * 16 + b / 16) ::
        b64Char (b % 16 * 4 + c / 64) :: b64Char (c % 64) :: btoa rest

/-- Standard base64 decoding, the inverse direction used to state the
round-trip property. -/
def atobL : List Char → Option (List Nat)
  | [] => some []
  | p :: q :: r :: s :: rest =>
    match b64Index p, b64Index q with
    | some x, some y =>
      if r = padChar ∧ s = padChar ∧ rest = [] then
        some [x * 4 + y / 16]
      else if s = padChar ∧ rest = [] then
        match b64Index r with
        | some z => some [x * 4 + y / 16, y % 16 * 16 + z / 4]
        | none => none
      else
        match b64Index r, b64Index s, atobL rest with
        | some z, some w, some tail =>
            some ((x * 4 + y / 16) :: (y % 16 * 16 + z / 4) :: (z % 4 * 64 + w) :: tail)
        | _, _, _ => none
    | _, _ => none
  | _ => none

/-- Slicing of the byte array into blocks of `CHUNK_SIZE = 8192`, as in
the source loop `for (let i = 0; i < bytes.length; i += CHUNK_SIZE)`. -/
def chunksOf (l : List Nat) : List (List Nat) :=
  match l with
  | [] => []
  | x :: xs => ((x :: xs).take 8192) :: chunksOf ((x :: xs).drop 8192)
termination_by l.length
decreasing_by simp [List.length_drop]; omega

/-- The encoder `arrayBufferToBase64`: chunk, stringify each chunk, join,
then `btoa`. -/
def arrayBufferToBase64 (bytes : List Nat) : String :=
  String.mk (btoa (chunksOf bytes).flatten)

/-! ### Query-value escaping, mirroring `escapeQueryValue` and `findFolder`

The source escapes with two global regex replaces: first every backslash
is doubled, then every single quote is prefixed with a backslash.  The two
global-replace passes are modelled as two traversals of the character
list, in the same order. -/

def escBackslash : List Char → List Char
  | [] => []
  | c :: rest =>
      (if c = backslashChar then [backslashChar, backslashChar] else [c]) ++ escBackslash rest

def escQuote : List Char → List Char
  | [] => []
  | c :: rest =>
      (if c = quoteChar then [backslashChar, quoteChar] else [c]) ++ escQuote rest

def escapeQueryValue (value : String) : String :=
  String.mk (escQuote (escBackslash value.data))

/-- The filter string built by `findFolder` around the escaped name. -/
def findFolderQuery (name parentId : String) : String :=
  "name=" ++ String.singleton quoteChar ++ escapeQueryValue name ++
    String.singleton quoteChar ++ " and " ++ String.singleton quoteChar ++ parentId ++
    String.singleton quoteChar ++
    " in parents and mimeType=" ++ String.singleton quoteChar ++
    "application/vnd.google-apps.folder" ++ String.singleton quoteChar ++
    " and trashed=false"

/-- The part of the query following the quoted name literal. -/
def querySuffix (parentId : String) : String :=
  " and " ++ String.singleton quoteChar ++ parentId ++ String.singleton quoteChar ++
    " in parents and mimeType=" ++ String.singleton quoteChar ++
    "application/vnd.google-apps.folder" ++ String.singleton quoteChar ++
    " and trashed=false"

/-- Reading a single-quoted literal back out of a query: a backslash escapes
the next character, an unescaped quote ends the literal; returns the decoded
literal and the remaining characters. -/
def parseQuoted : List Char → Option (List Char × List Char)
  | [] => none
  | c :: rest =>
    if c = backslashChar then
      match rest with
      | [] => none
      | d :: rest2 =>
        match parseQuoted rest2 with
        | some (v, r) => some (d :: v, r)
        | none => none
    else if c = quoteChar then some ([], rest)
    else
      match parseQuoted rest with
      | some (v, r) => some (c :: v, r)
      | none => none

/-! ### Data model

The structure `OAuthTokens` comes from the file `types.ts` of the
repository, which is not in the source tree; its fields are modelled from
the TokenSet of the spec
(`accessToken`, `refreshToken`, `expiresAt` as absolute epoch time; the
informational `expiresIn` is omitted as unused by the uploader). -/

deriving instance DecidableEq for Except

structure OAuthTokens where
  accessToken : String
  refreshToken : String
  expiresAt : Nat
deriving DecidableEq

/-- The mutable part of `GoogleDriveConfig` that `uploadFile` touches:
access token, refresh token, expiry, and whether an `onTokenRefresh`
callback was supplied (the callback itself is observed through the action
trace). -/
structure Config where
  accessToken : String
  refreshToken : String
  tokenExpiresAt : Nat
  hasOnTokenRefresh : Bool
deriving DecidableEq

/-- Uploader instance state: the config object plus `folderIdCache`,
modelled as an association list with first-match lookup and prepend
insert (`Map.get` / `Map.set` semantics). -/
structure St where
  config : Config
  cache : List (String × String)
deriving DecidableEq

def cacheGet : List (String × String) → String → Option String
  | [], _ => none
  | (k, v) :: rest, key => if k = key then some v else cacheGet rest key

def cacheSet (c : List (String × String)) (k v : String) : List (String × String) :=
  (k, v) :: c

inductive Stage where
  | preparing
  | uploading
  | settingPermission
  | complete
  | error
deriving DecidableEq

structure UploadProgress where
  stage : Stage
  message : String
  progress : Nat
  errMsg : Option String := none
deriving DecidableEq

structure DriveUploadResult where
  fileId : String
  webViewLink : String
  webContentLink : String
  fileName : String
  mimeType : String
deriving DecidableEq

structure FileV where
  name : String
  mimeType : String
  bytes : List Nat
deriving DecidableEq

structure FileInfo where
  webViewLink : Option String
  webContentLink : Option String
deriving DecidableEq

/-- Observable side effects of one upload, in order: the network requests
made and the caller-supplied callbacks invoked. -/
inductive Act where
  | refreshCall
  | persistCallback (tokens : OAuthTokens)
  | findFolderCall (query : String)
  | createFolderCall (name parentId : String)
  | uploadCall (accessToken folderId : String)
  | permissionCall (fileId : String)
  | infoCall (fileId : String)
deriving DecidableEq

/-- Environment: the outcome every external call would produce.  A
`.error` models a rejected promise (network failure or timeout); `.ok`
carries the decoded response fields the source reads. -/
structure Env where
  now : Nat
  margin : Nat
  refreshResult : Except String OAuthTokens
  findResp : String → Except String (Nat × Option String)
  createResp : String → String → Except String (Nat × String)
  uploadResp : Except String (Nat × Option String)
  permResp : Except String Unit
  infoResp : Except String FileInfo

/-- Modelled from the spec: `GoogleOAuthFlow.isTokenExpired` lives in the
missing `google-oauth-flow.ts`; the spec states it returns true when the
current time is within a safety margin of `expiresAt`, i.e. when
`now ≥ expiresAt − margin`. -/
def isTokenExpired (env : Env) (expiresAt : Nat) : Bool :=
  decide (expiresAt ≤ env.now + env.margin)

/-- The refresh step of `ensureValidToken`: when `tokenExpiresAt` and
`refreshToken` are truthy and the token is expired, call refresh,
propagate the new tokens into the config and await `onTokenRefresh` when
supplied.  The refresh call itself (`GoogleOAuthFlow.refreshAccessToken`,
in the missing module) is modelled from the spec as the environment
outcome `refreshResult`. -/
def refreshIfNeeded (env : Env) (st : St) : Except String Unit × St × List Act :=
  let cfg := st.config
  if cfg.tokenExpiresAt ≠ 0 ∧ cfg.refreshToken ≠ "" then
    if isTokenExpired env cfg.tokenExpiresAt then
      match env.refreshResult with
      | .ok newTokens =>
          let cfg2 := { cfg with
            accessToken := newTokens.accessToken,
            tokenExpiresAt := newTokens.expiresAt }
          let acts :=
            if cfg.hasOnTokenRefresh then
              [Act.refreshCall, Act.persistCallback newTokens]
            else [Act.refreshCall]
          (.ok (), { st with config := cfg2 }, acts)
      | .error _ =>
          (.error "Token refresh failed. Please reconnect Google Drive.", st,
            [Act.refreshCall])
    else (.ok (), st, [])
  else (.ok (), st, [])

/-- Then `ensureValidToken`: refresh if necessary, then fail when no
access token is present, else return it. -/
def ensureValidToken (env : Env) (st : St) : Except String String × St × List Act :=
  match refreshIfNeeded env st with
  | (.error e, st2, acts) => (.error e, st2, acts)
  | (.ok _, st2, acts) =>
      if st2.config.accessToken = "" then
        (.error "Not connected to Google Drive. Please connect first.", st2, acts)
      else (.ok st2.config.accessToken, st2, acts)

/-- Lookup `findFolder`: every failure (token, transport, non-200, empty
result, falsy id) collapses to `none`; the request uses the escaped
query. -/
def findFolder (env : Env) (st : St) (name parentId : String) :
    Option String × St × List Act :=
  match ensureValidToken env st with
  | (.error _, st2, acts) => (none, st2, acts)
  | (.ok _, st2, acts) =>
      let query := findFolderQuery name parentId
      match env.findResp query with
      | .error _ => (none, st2, acts ++ [Act.findFolderCall query])
      | .ok (status, fid?) =>
          let r :=
            if status = 200 then
              match fid? with
              | some fid => if fid = "" then none else some fid
              | none => none
            else none
          (r, st2, acts ++ [Act.findFolderCall query])

/-- Creation `createFolder`: throws on token failure, transport failure
or a non-200 status, else returns the new folder id. -/
def createFolder (env : Env) (st : St) (name parentId : String) :
    Except String String × St × List Act :=
  match ensureValidToken env st with
  | (.error e, st2, acts) => (.error e, st2, acts)
  | (.ok _, st2, acts) =>
      match env.createResp name parentId with
      | .error e => (.error e, st2, acts ++ [Act.createFolderCall name parentId])
      | .ok (status, fid) =>
          if status ≠ 200 then
            (.error ("Folder creation failed: " ++ toString status), st2,
              acts ++ [Act.createFolderCall name parentId])
          else (.ok fid, st2, acts ++ [Act.createFolderCall name parentId])

def slashChar : Char := Char.ofNat 47

/-- The JS split-on-slash on the character list: cut at every slash,
keeping empty pieces (so the pieces of a double slash include an empty
string, and the empty input yields one empty piece). -/
def splitSlashAux : List Char → List Char → List String
  | [], acc => [String.mk acc.reverse]
  | c :: rest, acc =>
      if c = slashChar then String.mk acc.reverse :: splitSlashAux rest []
      else splitSlashAux rest (c :: acc)

/-- The segment list of `ensureFolder`:
the JS split on slash followed by `filter(p => p.length > 0)`. -/
def pathSegments (folderPath : String) : List String :=
  (splitSlashAux folderPath.data []).filter (fun p => decide (p.length > 0))

/-- JS truthiness of the cache lookup `if (cached)`: an absent entry and a
cached empty string are both misses. -/
def truthy : Option String → Option String
  | some v => if v = "" then none else some v
  | none => none

/-- The per-segment loop of `ensureFolder`: check the cache for the
cumulative path, else look the folder up, else create it, caching the
resolved id before moving to the next segment. -/
def ensureFolderLoop (env : Env) :
    List String → String → String → St → Except String String × St × List Act
  | [], parentId, _, st => (.ok parentId, st, [])
  | folderName :: rest, parentId, cumulativePath, st =>
      let cum2 := cumulativePath ++ "/" ++ folderName
      match truthy (cacheGet st.cache cum2) with
      | some cached => ensureFolderLoop env rest cached cum2 st
      | none =>
          match findFolder env st folderName parentId with
          | (some existingId, st2, a1) =>
              let st3 := { st2 with cache := cacheSet st2.cache cum2 existingId }
              let (r, st4, a2) := ensureFolderLoop env rest existingId cum2 st3
              (r, st4, a1 ++ a2)
          | (none, st2, a1) =>
              match createFolder env st2 folderName parentId with
              | (.error e, st3, a2) => (.error e, st3, a1 ++ a2)
              | (.ok newId, st3, a2) =>
                  let st4 := { st3 with cache := cacheSet st3.cache cum2 newId }
                  let (r, st5, a3) := ensureFolderLoop env rest newId cum2 st4
                  (r, st5, a1 ++ a2 ++ a3)

/-- Resolution `ensureFolder`: split the path, walk the segments from
the root folder id. -/
def ensureFolder (env : Env) (st : St) (folderPath : String) :
    Except String String × St × List Act :=
  ensureFolderLoop env (pathSegments folderPath) "root" "" st

/-- Permissioning `makeFilePublic`: best-effort, catches every failure. -/
def makeFilePublic (env : Env) (st : St) (fileId : String) : St × List Act :=
  match ensureValidToken env st with
  | (.error _, st2, acts) => (st2, acts)
  | (.ok _, st2, acts) =>
      match env.permResp with
      | .error _ => (st2, acts ++ [Act.permissionCall fileId])
      | .ok _ => (st2, acts ++ [Act.permissionCall fileId])

/-- Link fetch `getFileInfo`: returns an empty object (no links) on any
failure. -/
def getFileInfo (env : Env) (st : St) (fileId : String) : FileInfo × St × List Act :=
  match ensureValidToken env st with
  | (.error _, st2, acts) => (⟨none, none⟩, st2, acts)
  | (.ok _, st2, acts) =>
      match env.infoResp with
      | .error _ => (⟨none, none⟩, st2, acts ++ [Act.infoCall fileId])
      | .ok info => (info, st2, acts ++ [Act.infoCall fileId])

/-- JS `a || b` on an optional string: the fallback is used when the link
is absent or the empty string. -/
def orFallback (o : Option String) (fallback : String) : String :=
  match o with
  | some l => if l = "" then fallback else l
  | none => fallback

def preparingEvent : UploadProgress :=
  { stage := .preparing, message := "Preparing upload...", progress := 10 }

def uploadingEvent : UploadProgress :=
  { stage := .uploading, message := "Uploading to Google Drive...", progress := 30 }

def permissionEvent : UploadProgress :=
  { stage := .settingPermission, message := "Setting public access...", progress := 70 }

def completeEvent : UploadProgress :=
  { stage := .complete, message := "Upload complete!", progress := 100 }

def errorEvent (e : String) : UploadProgress :=
  { stage := .error, message := "Upload failed", progress := 0, errMsg := some e }

/-- One `uploadFile` run: result, final state, progress events in emission
order, actions in order.  The surrounding try/catch turns any thrown error
into a single `error` event and a `null` result; the function itself never
throws (it is total). -/
structure UploadRun where
  result : Option DriveUploadResult
  state : St
  progress : List UploadProgress
  acts : List Act
deriving DecidableEq

def uploadFile (env : Env) (st : St) (file : FileV) (folderPath : String) : UploadRun :=
  let p1 := [preparingEvent]
  match ensureValidToken env st with
  | (.error e, st1, a1) => ⟨none, st1, p1 ++ [errorEvent e], a1⟩
  | (.ok accessToken, st1, a1) =>
      match ensureFolder env st1 folderPath with
      | (.error e, st2, a2) => ⟨none, st2, p1 ++ [errorEvent e], a1 ++ a2⟩
      | (.ok folderId, st2, a2) =>
          let _base64Content := arrayBufferToBase64 file.bytes
          let p2 := p1 ++ [uploadingEvent]
          let acts := a1 ++ a2 ++ [Act.uploadCall accessToken folderId]
          match env.uploadResp with
          | .error e => ⟨none, st2, p2 ++ [errorEvent e], acts⟩
          | .ok (status, fid?) =>
              if status ≠ 200 then
                ⟨none, st2, p2 ++ [errorEvent ("Upload failed: " ++ toString status)],
                  acts⟩
              else
                match fid? with
                | none =>
                    ⟨none, st2, p2 ++ [errorEvent "Upload response missing file ID"],
                      acts⟩
                | some fileId =>
                    let p3 := p2 ++ [permissionEvent]
                    let (st3, a3) := makeFilePublic env st2 fileId
                    let (fileInfo, st4, a4) := getFileInfo env st3 fileId
                    let p4 := p3 ++ [completeEvent]
                    ⟨some
                      { fileId := fileId,
                        webViewLink := orFallback fileInfo.webViewLink
                          ("https://drive.google.com/file/d/" ++ fileId ++ "/view"),
                        webContentLink := orFallback fileInfo.webContentLink
                          ("https://drive.google.com/uc?export=view&id=" ++ fileId),
                        fileName := file.name,
                        mimeType := file.mimeType },
                      st4, p4, acts ++ a3 ++ a4⟩

/-- The upload request step fails: the request throws (transport failure
or timeout), or returns a non-200 status, or returns 200 without a string
file id. -/
def uploadCallFails (env : Env) : Prop :=
  (∃ e, env.uploadResp = .error e) ∨
    ∃ s i, env.uploadResp = .ok (s, i) ∧ (s ≠ 200 ∨ i = none)

/-- A failure occurs at token acquisition, folder resolution, or the
upload call of `uploadFile`. -/
def preUploadFailure (env : Env) (st : St) (folderPath : String) : Prop :=
  (∃ e st1 a1, ensureValidToken env st = (.error e, st1, a1)) ∨
    ∃ tok st1 a1, ensureValidToken env st = (.ok tok, st1, a1) ∧
      ((∃ e st2 a2, ensureFolder env st1 folderPath = (.error e, st2, a2)) ∨
        ∃ fid st2 a2, ensureFolder env st1 folderPath = (.ok fid, st2, a2) ∧
          uploadCallFails env)

/-- The token is fresh: the refresh guard of `ensureValidToken` does not
fire. -/
def tokenFresh (env : Env) (cfg : Config) : Prop :=
  cfg.tokenExpiresAt = 0 ∨ cfg.refreshToken = "" ∨
    isTokenExpired env cfg.tokenExpiresAt = false

/-- The state after a successful refresh with tokens `nt`. -/
def refreshState (st : St) (nt : OAuthTokens) : St :=
  { st with config := { st.config with
      accessToken := nt.accessToken, tokenExpiresAt := nt.expiresAt } }

/-! ### Concrete sample data for the witnesses -/

def sampleFile : FileV := ⟨"img.png", "image/png", [1, 2, 3]⟩

def sampleConfig : Config := ⟨"tok", "refresh", 0, true⟩

def sampleSt : St := ⟨sampleConfig, []⟩

def sampleTokens : OAuthTokens := ⟨"newTok", "refresh", 999999⟩

def sampleEnv : Env :=
  { now := 1000
    margin := 60
    refreshResult := .ok sampleTokens
    findResp := fun _ => .ok (200, some "folder1")
    createResp := fun _ _ => .ok (200, "created1")
    uploadResp := .ok (200, some "file1")
    permResp := .ok ()
    infoResp := .ok ⟨some "viewLink", some "contentLink"⟩ }

def sampleEnvUploadFail : Env := { sampleEnv with uploadResp := .error "boom" }

def sampleEnvPermFail : Env := { sampleEnv with permResp := .error "denied" }

def sampleEnvInfoFail : Env := { sampleEnv with infoResp := .error "nope" }

def expiredConfig : Config := ⟨"old", "refresh", 500, true⟩

def expiredSt : St := ⟨expiredConfig, []⟩

def cachedSt : St := ⟨sampleConfig, [("/A/B", "folder1"), ("/A", "folder1")]⟩

/-! ### Lemmas about base64 -/

theorem b64Index_b64Char : ∀ n, n < 64 → b64Index (b64Char n) = some n := by decide

theorem b64Char_ne_pad : ∀ n, n < 64 → b64Char n ≠ padChar := by decide

theorem addMulDiv (m k n : Nat) (hn : 0 < n) (hk : k < n) : (m * n + k) / n = m := by
  rw [Nat.add_comm, Nat.add_mul_div_right _ _ hn, Nat.div_eq_of_lt hk, Nat.zero_add]

theorem addMulMod (m k n : Nat) (hk : k < n) : (m * n + k) % n = k := by
  rw [Nat.mul_comm, Nat.mul_add_mod, Nat.mod_eq_of_lt hk]

theorem chunksOf_flatten : ∀ fuel (l : List Nat), l.length ≤ fuel → (chunksOf l).flatten = l
  | _, [], _ => by simp [chunksOf]
  | 0, x :: xs, h => by simp at h
  | fuel + 1, x :: xs, h => by
      have ih := chunksOf_flatten fuel ((x :: xs).drop 8192) (by simp at h ⊢; omega)
      rw [chunksOf]
      simp only [List.flatten_cons, ih, List.take_append_drop]

theorem chunksOf_bounded : ∀ fuel (l : List Nat), l.length ≤ fuel →
    ∀ c ∈ chunksOf l, c.length ≤ 8192
  | _, [], _ => by simp [chunksOf]
  | 0, x :: xs, h => by simp at h
  | fuel + 1, x :: xs, h => by
      have ih := chunksOf_bounded fuel ((x :: xs).drop 8192) (by simp at h ⊢; omega)
      rw [chunksOf]
      intro c hc
      rcases List.mem_cons.1 hc with rfl | hc
      · exact List.length_take_le 8192 (x :: xs)
      · exact ih c hc

theorem atobL_btoa : ∀ l : List Nat, (∀ b ∈ l, b < 256) → atobL (btoa l) = some l
  | [], _ => by simp [btoa, atobL]
  | [a], h => by
      have ha : a < 256 := h a (by simp)
      have h1 : a / 4 < 64 := by omega
      have h2 : a % 4 * 16 < 64 := by omega
      have e1 : a % 4 * 16 / 16 = a % 4 := Nat.mul_div_cancel _ (by norm_num)
      simp [btoa, atobL, b64Index_b64Char _ h1, b64Index_b64Char _ h2, e1]
      omega
  | [a, b], h => by
      have ha : a < 256 := h a (by simp)
      have hb : b < 256 := h b (by simp)
      have h1 : a / 4 < 64 := by omega
      have h2 : a % 4 * 16 + b / 16 < 64 := by omega
      have h3 : b % 16 * 4 < 64 := by omega
      have e1 : (a % 4 * 16 + b / 16) / 16 = a % 4 :=
        addMulDiv _ _ _ (by norm_num) (by omega)
      have e2 : (a % 4 * 16 + b / 16) % 16 = b / 16 := addMulMod _ _ _ (by omega)
      have e3 : b % 16 * 4 / 4 = b % 16 := Nat.mul_div_cancel _ (by norm_num)
      simp [btoa, atobL, b64Index_b64Char _ h1, b64Index_b64Char _ h2,
        b64Index_b64Char _ h3, b64Char_ne_pad _ h3, e1, e2, e3]
      omega
  | a :: b :: c :: rest, h => by
      have ha : a < 256 := h a (by simp)
      have hb : b < 256 := h b (by simp)
      have hc : c < 256 := h c (by simp)
      have ih := atobL_btoa rest (fun x hx => h x (by simp [hx]))
      have h1 : a / 4 < 64 := by omega
      have h2 : a % 4 * 16 + b / 16 < 64 := by omega
      have h3 : b % 16 * 4 + c / 64 < 64 := by omega
      have h4 : c % 64 < 64 := by omega
      have e1 : (a % 4 * 16 + b / 16) / 16 = a % 4 :=
        addMulDiv _ _ _ (by norm_num) (by omega)
      have e2 : (a % 4 * 16 + b / 16) % 16 = b / 16 := addMulMod _ _ _ (by omega)
      have e3 : (b % 16 * 4 + c / 64) / 4 = b % 16 :=
        addMulDiv _ _ _ (by norm_num) (by omega)
      have e4 : (b % 16 * 4 + c / 64) % 4 = c / 64 := addMulMod _ _ _ (by omega)
      simp [btoa, atobL, b64Index_b64Char _ h1, b64Index_b64Char _ h2,
        b64Index_b64Char _ h3, b64Index_b64Char _ h4,
        b64Char_ne_pad _ h3, b64Char_ne_pad _ h4, ih, e1, e2, e3, e4]
      omega

/-! ### Lemmas about query escaping -/

theorem backslash_ne_quote : backslashChar ≠ quoteChar := by decide

theorem quote_ne_backslash : quoteChar ≠ backslashChar := by decide

theorem escQuote_escBackslash_cons (c : Char) (cs : List Char) :
    escQuote (escBackslash (c :: cs)) =
      (if c = backslashChar then [backslashChar, backslashChar]
       else if c = quoteChar then [backslashChar, quoteChar] else [c]) ++
        escQuote (escBackslash cs) := by
  by_cases hb : c = backslashChar
  · subst hb
    simp [escBackslash, escQuote, backslash_ne_quote]
  · by_cases hq : c = quoteChar
    · subst hq
      simp [escBackslash, escQuote, quote_ne_backslash]
    · simp [escBackslash, escQuote, hb, hq]

theorem parseQuoted_escaped (s rest : List Char) :
    parseQuoted (escQuote (escBackslash s) ++ quoteChar :: rest) = some (s, rest) := by
  induction s with
  | nil =>
      rw [escBackslash, escQuote, List.nil_append, parseQuoted.eq_def]
      simp [quote_ne_backslash]
  | cons c cs ih =>
      rw [escQuote_escBackslash_cons]
      by_cases hb : c = backslashChar
      · subst hb
        rw [if_pos rfl, List.cons_append, List.singleton_append, parseQuoted.eq_def]
        simp [ih]
      · by_cases hq : c = quoteChar
        · subst hq
          rw [if_neg quote_ne_backslash, if_pos rfl, List.cons_append,
            List.singleton_append, parseQuoted.eq_def]
          simp [ih]
        · rw [if_neg hb, if_neg hq, List.singleton_append, parseQuoted.eq_def]
          simp [hb, hq, ih]

/-! ### Lemmas about the token step -/

theorem refreshIfNeeded_fresh (env : Env) (st : St) (h : tokenFresh env st.config) :
    refreshIfNeeded env st = (.ok (), st, []) := by
  unfold refreshIfNeeded
  rcases h with h | h | h
  · rw [if_neg (fun hc => hc.1 h)]
  · rw [if_neg (fun hc => hc.2 h)]
  · by_cases h1 : st.config.tokenExpiresAt ≠ 0 ∧ st.config.refreshToken ≠ ""
    · rw [if_pos h1, if_neg (by simp [h])]
    · rw [if_neg h1]

theorem ensureValidToken_fresh (env : Env) (st : St) (h : tokenFresh env st.config)
    (ha : st.config.accessToken ≠ "") :
    ensureValidToken env st = (.ok st.config.accessToken, st, []) := by
  unfold ensureValidToken
  rw [refreshIfNeeded_fresh env st h]
  simp [ha]

theorem refreshIfNeeded_cache (env : Env) (st : St) :
    (refreshIfNeeded env st).2.1.cache = st.cache := by
  unfold refreshIfNeeded
  by_cases h1 : st.config.tokenExpiresAt ≠ 0 ∧ st.config.refreshToken ≠ ""
  · rw [if_pos h1]
    by_cases h2 : isTokenExpired env st.config.tokenExpiresAt = true
    · rw [if_pos h2]
      cases henv : env.refreshResult <;> simp
    · rw [if_neg h2]
  · rw [if_neg h1]

theorem ensureValidToken_cache (env : Env) (st : St) :
    (ensureValidToken env st).2.1.cache = st.cache := by
  unfold ensureValidToken
  rcases hr : refreshIfNeeded env st with ⟨r, st2, acts⟩
  have hc : st2.cache = st.cache := by
    have h := refreshIfNeeded_cache env st
    rw [hr] at h
    exact h
  cases r
  · simp [hc]
  · by_cases ha : st2.config.accessToken = "" <;> simp [ha, hc]

theorem refreshIfNeeded_acts (env : Env) (st : St) :
    ∀ act ∈ (refreshIfNeeded env st).2.2,
      act = Act.refreshCall ∨ ∃ t, act = Act.persistCallback t := by
  unfold refreshIfNeeded
  by_cases h1 : st.config.tokenExpiresAt ≠ 0 ∧ st.config.refreshToken ≠ ""
  · rw [if_pos h1]
    by_cases h2 : isTokenExpired env st.config.tokenExpiresAt = true
    · rw [if_pos h2]
      cases henv : env.refreshResult
      · simp
      · by_cases h3 : st.config.hasOnTokenRefresh = true <;> simp [h3]
    · rw [if_neg h2]; simp
  · rw [if_neg h1]; simp

theorem ensureValidToken_acts (env : Env) (st : St) :
    ∀ act ∈ (ensureValidToken env st).2.2,
      act = Act.refreshCall ∨ ∃ t, act = Act.persistCallback t := by
  unfold ensureValidToken
  have h := refreshIfNeeded_acts env st
  rcases hr : refreshIfNeeded env st with ⟨r, st2, acts⟩
  rw [hr] at h
  cases r
  · exact h
  · by_cases ha : st2.config.accessToken = "" <;> simp [ha] <;> exact fun a hm => h a hm

theorem ensureValidToken_refresh (env : Env) (st : St) (nt : OAuthTokens)
    (h1 : st.config.tokenExpiresAt ≠ 0) (h2 : st.config.refreshToken ≠ "")
    (h3 : isTokenExpired env st.config.tokenExpiresAt = true)
    (h4 : env.refreshResult = .ok nt) (h5 : st.config.hasOnTokenRefresh = true)
    (h6 : nt.accessToken ≠ "") :
    ensureValidToken env st =
      (.ok nt.accessToken, refreshState st nt,
        [Act.refreshCall, Act.persistCallback nt]) := by
  have hr : refreshIfNeeded env st =
      (.ok (), refreshState st nt, [Act.refreshCall, Act.persistCallback nt]) := by
    unfold refreshIfNeeded
    rw [if_pos ⟨h1, h2⟩, if_pos h3, h4]
    simp [h5, refreshState]
  unfold ensureValidToken
  rw [hr]
  simp [refreshState, h6]

/-! ### Lemmas about folder lookup and creation -/

theorem findFolder_cache (env : Env) (st : St) (n p : String) :
    (findFolder env st n p).2.1.cache = st.cache := by
  have h := ensureValidToken_cache env st
  rcases hr : ensureValidToken env st with ⟨r, st2, acts⟩
  rw [hr] at h
  simp only [hr] at h
  cases r <;>
    rcases henv : env.findResp (findFolderQuery n p) with e | ⟨status, fid?⟩ <;>
      simp [findFolder, hr, henv] <;> exact h

theorem createFolder_cache (env : Env) (st : St) (n p : String) :
    (createFolder env st n p).2.1.cache = st.cache := by
  have h := ensureValidToken_cache env st
  rcases hr : ensureValidToken env st with ⟨r, st2, acts⟩
  rw [hr] at h
  simp only [hr] at h
  cases r <;>
    rcases henv : env.createResp n p with e | ⟨status, fid⟩ <;>
      [skip; skip; skip; by_cases hs : status ≠ 200] <;>
        simp [createFolder, hr, henv, *]

theorem findFolder_fresh (env : Env) (st : St) (n p : String)
    (hf : tokenFresh env st.config) (ha : st.config.accessToken ≠ "") :
    (findFolder env st n p).2.1 = st ∧
      ∀ act ∈ (findFolder env st n p).2.2, ∃ q, act = Act.findFolderCall q := by
  rcases henv : env.findResp (findFolderQuery n p) with e | ⟨status, fid?⟩ <;>
    simp [findFolder, ensureValidToken_fresh env st hf ha, henv]

theorem createFolder_fresh (env : Env) (st : St) (n p : String)
    (hf : tokenFresh env st.config) (ha : st.config.accessToken ≠ "") :
    (createFolder env st n p).2.1 = st ∧
      ∀ act ∈ (createFolder env st n p).2.2, act = Act.createFolderCall n p := by
  rcases henv : env.createResp n p with e | ⟨status, fid⟩
  · simp [createFolder, ensureValidToken_fresh env st hf ha, henv]
  · by_cases hs : status ≠ 200 <;>
      simp [createFolder, ensureValidToken_fresh env st hf ha, henv, hs]

theorem findFolder_some_ne (env : Env) (st : St) (n p v : String)
    (h : (findFolder env st n p).1 = some v) : v ≠ "" := by
  rcases hr : ensureValidToken env st with ⟨r, st2, acts⟩
  cases r
  · simp [findFolder, hr] at h
  · rcases henv : env.findResp (findFolderQuery n p) with e | ⟨status, fid?⟩
    · simp [findFolder, hr, henv] at h
    · simp [findFolder, hr, henv] at h
      obtain ⟨hs, h2⟩ := h
      cases fid?
      · simp at h2
      · rename_i fid
        by_cases hfid : fid = ""
        · simp [hfid] at h2
        · simp [hfid] at h2
          rw [← h2]; exact hfid

theorem createFolder_ok_ne (env : Env) (st : St) (n p v : String)
    (hC : ∀ n2 p2 s i, env.createResp n2 p2 = Except.ok (s, i) → i ≠ "")
    (h : (createFolder env st n p).1 = Except.ok v) : v ≠ "" := by
  rcases hr : ensureValidToken env st with ⟨r, st2, acts⟩
  cases r
  · simp [createFolder, hr] at h
  · rcases henv : env.createResp n p with e | ⟨status, fid⟩
    · simp [createFolder, hr, henv] at h
    · by_cases hs : status ≠ 200
      · simp [createFolder, hr, henv, hs] at h
      · simp [createFolder, hr, henv, hs] at h
        rw [← h]
        exact hC n p status fid henv

/-! ### Lemmas about the folder-resolution loop -/

theorem cacheGet_cons_ne (c : List (String × String)) (k2 v k : String)
    (h : k2 ≠ k) : cacheGet ((k2, v) :: c) k = cacheGet c k := by
  simp [cacheGet, h]

theorem cum2_length (cum name : String) :
    (cum ++ "/" ++ name).length = cum.length + 1 + name.length := by
  have h1 : "/".length = 1 := rfl
  rw [String.length_append, String.length_append, h1]

/-- Walking segments rooted at `cum` never changes cache entries whose
keys are no longer than `cum`: every key written strictly extends `cum`. -/
theorem ensureFolderLoop_cache_short (env : Env) :
    ∀ (segs : List String) (parentId cum : String) (st : St) r st2 a (k : String),
      ensureFolderLoop env segs parentId cum st = (r, st2, a) →
      k.length ≤ cum.length →
      cacheGet st2.cache k = cacheGet st.cache k := by
  intro segs
  induction segs with
  | nil =>
      intro parentId cum st r st2 a k h hk
      simp only [ensureFolderLoop, Prod.mk.injEq] at h
      rw [← h.2.1]
  | cons name rest ih =>
      intro parentId cum st r st2 a k h hk
      have hlen : k.length ≤ (cum ++ "/" ++ name).length := by
        rw [cum2_length]; omega
      have hne : (cum ++ "/" ++ name) ≠ k := by
        intro he
        have := congrArg String.length he
        rw [cum2_length] at this
        omega
      simp only [ensureFolderLoop] at h
      split at h
      · -- cache hit
        exact ih _ _ st r st2 a k h hlen
      · -- cache miss
        split at h
        · -- folder found
          rename_i existingId stF a1 heq2
          rcases hrec : ensureFolderLoop env rest existingId (cum ++ "/" ++ name)
              ⟨stF.config, cacheSet stF.cache (cum ++ "/" ++ name) existingId⟩ with
            ⟨r4, st4, a4⟩
          rw [hrec] at h
          simp only [Prod.mk.injEq] at h
          obtain ⟨h1, h2, h3⟩ := h
          subst h1; subst h2; subst h3
          have hF : stF.cache = st.cache := by
            have hfc := findFolder_cache env st name parentId
            rw [heq2] at hfc
            exact hfc
          have h4 := ih _ _ _ _ _ _ k hrec hlen
          rw [h4]
          show cacheGet (cacheSet stF.cache (cum ++ "/" ++ name) existingId) k = _
          rw [cacheSet, cacheGet_cons_ne _ _ _ _ hne, hF]
        · -- folder not found: create
          rename_i stF a1 heq2
          have hF : stF.cache = st.cache := by
            have hfc := findFolder_cache env st name parentId
            rw [heq2] at hfc
            exact hfc
          split at h
          · -- creation failed
            rename_i e stC a2 heq3
            simp only [Prod.mk.injEq] at h
            obtain ⟨h1, h2, h3⟩ := h
            subst h1; subst h2; subst h3
            have hcc := createFolder_cache env stF name parentId
            rw [heq3] at hcc
            rw [hcc, hF]
          · -- creation succeeded
            rename_i newId stC a2 heq3
            rcases hrec : ensureFolderLoop env rest newId (cum ++ "/" ++ name)
                ⟨stC.config, cacheSet stC.cache (cum ++ "/" ++ name) newId⟩ with
              ⟨r4, st4, a4⟩
            rw [hrec] at h
            simp only [Prod.mk.injEq] at h
            obtain ⟨h1, h2, h3⟩ := h
            subst h1; subst h2; subst h3
            have hcc := createFolder_cache env stF name parentId
            rw [heq3] at hcc
            have h4 := ih _ _ _ _ _ _ k hrec hlen
            rw [h4]
            show cacheGet (cacheSet stC.cache (cum ++ "/" ++ name) newId) k = _
            rw [cacheSet, cacheGet_cons_ne _ _ _ _ hne, hcc, hF]

/-- Replay: a successful walk leaves a cache from which the same walk is
answered entirely by cache hits — same folder id, unchanged state, and no
network actions.  Needs well-formed creation responses (a created folder
id is never the empty string, which the cache check would treat as
falsy). -/
theorem ensureFolderLoop_replay (env : Env)
    (hC : ∀ n2 p2 s i, env.createResp n2 p2 = Except.ok (s, i) → i ≠ "") :
    ∀ (segs : List String) (parentId cum : String) (st : St) fid st2 a,
      ensureFolderLoop env segs parentId cum st = (.ok fid, st2, a) →
      ensureFolderLoop env segs parentId cum st2 = (.ok fid, st2, []) := by
  intro segs
  induction segs with
  | nil =>
      intro parentId cum st fid st2 a h
      simp only [ensureFolderLoop, Prod.mk.injEq, Except.ok.injEq] at h
      obtain ⟨h1, h2, h3⟩ := h
      subst h1
      subst h2
      simp [ensureFolderLoop]
  | cons name rest ih =>
      intro parentId cum st fid st2 a h
      simp only [ensureFolderLoop] at h
      split at h
      · -- cache hit on the first run: the entry survives the walk
        rename_i cached heq
        have hpres := ensureFolderLoop_cache_short env rest cached (cum ++ "/" ++ name)
          st _ _ _ (cum ++ "/" ++ name) h le_rfl
        simp only [ensureFolderLoop]
        rw [hpres, heq]
        exact ih _ _ _ _ _ _ h
      · -- cache miss on the first run
        rename_i heq
        split at h
        · -- folder found remotely; its id is cached
          rename_i existingId stF a1 heq2
          rcases hrec : ensureFolderLoop env rest existingId (cum ++ "/" ++ name)
              ⟨stF.config, cacheSet stF.cache (cum ++ "/" ++ name) existingId⟩ with
            ⟨r4, st4, a4⟩
          rw [hrec] at h
          simp only [Prod.mk.injEq] at h
          obtain ⟨h1, h2, h3⟩ := h
          subst h1
          subst h2
          have hnz : existingId ≠ "" :=
            findFolder_some_ne env st name parentId existingId (by rw [heq2])
          have hpres := ensureFolderLoop_cache_short env rest existingId
            (cum ++ "/" ++ name) _ _ _ _ (cum ++ "/" ++ name) hrec le_rfl
          have hget : cacheGet st4.cache (cum ++ "/" ++ name) = some existingId := by
            rw [hpres]
            show cacheGet (cacheSet stF.cache (cum ++ "/" ++ name) existingId) _ = _
            simp [cacheSet, cacheGet]
          simp only [ensureFolderLoop]
          rw [hget, show truthy (some existingId) = some existingId by simp [truthy, hnz]]
          exact ih _ _ _ _ _ _ hrec
        · -- folder created remotely; its id is cached
          rename_i stF a1 heq2
          split at h
          · rename_i e stC a2 heq3
            simp at h
          · rename_i newId stC a2 heq3
            rcases hrec : ensureFolderLoop env rest newId (cum ++ "/" ++ name)
                ⟨stC.config, cacheSet stC.cache (cum ++ "/" ++ name) newId⟩ with
              ⟨r4, st4, a4⟩
            rw [hrec] at h
            simp only [Prod.mk.injEq] at h
            obtain ⟨h1, h2, h3⟩ := h
            subst h1
            subst h2
            have hnz : newId ≠ "" :=
              createFolder_ok_ne env stF name parentId newId hC (by rw [heq3])
            have hpres := ensureFolderLoop_cache_short env rest newId
              (cum ++ "/" ++ name) _ _ _ _ (cum ++ "/" ++ name) hrec le_rfl
            have hget : cacheGet st4.cache (cum ++ "/" ++ name) = some newId := by
              rw [hpres]
              show cacheGet (cacheSet stC.cache (cum ++ "/" ++ name) newId) _ = _
              simp [cacheSet, cacheGet]
            simp only [ensureFolderLoop]
            rw [hget, show truthy (some newId) = some newId by simp [truthy, hnz]]
            exact ih _ _ _ _ _ _ hrec

/-- Calling `ensureFolder` twice with the same path: the second call
returns the same id from the cache, changes nothing and performs no
lookup or creation call. -/
theorem ensureFolder_replay (env : Env) (st : St) (folderPath fid : String)
    (st2 : St) (a : List Act)
    (hC : ∀ n2 p2 s i, env.createResp n2 p2 = Except.ok (s, i) → i ≠ "")
    (h : ensureFolder env st folderPath = (.ok fid, st2, a)) :
    ensureFolder env st2 folderPath = (.ok fid, st2, []) :=
  ensureFolderLoop_replay env hC _ _ _ _ _ _ _ h

/-- With a fresh token, the folder walk never touches the config and its
actions are exactly folder lookups and folder creations. -/
theorem ensureFolderLoop_fresh (env : Env) :
    ∀ (segs : List String) (parentId cum : String) (st : St) r st2 a,
      ensureFolderLoop env segs parentId cum st = (r, st2, a) →
      tokenFresh env st.config → st.config.accessToken ≠ "" →
      st2.config = st.config ∧
      ∀ act ∈ a,
        (∃ q, act = Act.findFolderCall q) ∨ ∃ n2 p2, act = Act.createFolderCall n2 p2 := by
  intro segs
  induction segs with
  | nil =>
      intro parentId cum st r st2 a h hf ha
      simp only [ensureFolderLoop, Prod.mk.injEq] at h
      obtain ⟨h1, h2, h3⟩ := h
      subst h2
      subst h3
      simp
  | cons name rest ih =>
      intro parentId cum st r st2 a h hf ha
      simp only [ensureFolderLoop] at h
      split at h
      · -- cache hit
        exact ih _ _ st r st2 a h hf ha
      · -- cache miss
        split at h
        · -- folder found
          rename_i existingId stF a1 heq2
          have hstF : stF = st := by
            have hx := (findFolder_fresh env st name parentId hf ha).1
            rw [heq2] at hx
            exact hx
          have hactsF : ∀ act ∈ a1, ∃ q, act = Act.findFolderCall q := by
            have hx := (findFolder_fresh env st name parentId hf ha).2
            rw [heq2] at hx
            exact hx
          subst hstF
          rcases hrec : ensureFolderLoop env rest existingId (cum ++ "/" ++ name)
              ⟨stF.config, cacheSet stF.cache (cum ++ "/" ++ name) existingId⟩ with
            ⟨r4, st4, a4⟩
          rw [hrec] at h
          simp only [Prod.mk.injEq] at h
          obtain ⟨h1, h2, h3⟩ := h
          subst h1; subst h2; subst h3
          obtain ⟨hcfg, hacts⟩ := ih _ _ _ _ _ _ hrec hf ha
          refine ⟨hcfg, ?_⟩
          intro act hm
          rw [List.mem_append] at hm
          rcases hm with hm | hm
          · exact Or.inl (hactsF act hm)
          · exact hacts act hm
        · -- folder not found: create
          rename_i stF a1 heq2
          have hstF : stF = st := by
            have hx := (findFolder_fresh env st name parentId hf ha).1
            rw [heq2] at hx
            exact hx
          have hactsF : ∀ act ∈ a1, ∃ q, act = Act.findFolderCall q := by
            have hx := (findFolder_fresh env st name parentId hf ha).2
            rw [heq2] at hx
            exact hx
          subst hstF
          split at h
          · -- creation failed
            rename_i e stC a2 heq3
            have hstC : stC = stF := by
              have hx := (createFolder_fresh env stF name parentId hf ha).1
              rw [heq3] at hx
              exact hx
            have hactsC : ∀ act ∈ a2, act = Act.createFolderCall name parentId := by
              have hx := (createFolder_fresh env stF name parentId hf ha).2
              rw [heq3] at hx
              exact hx
            simp only [Prod.mk.injEq] at h
            obtain ⟨h1, h2, h3⟩ := h
            subst h1; subst h2; subst h3
            refine ⟨by rw [hstC], ?_⟩
            intro act hm
            rw [List.mem_append] at hm
            rcases hm with hm | hm
            · exact Or.inl (hactsF act hm)
            · exact Or.inr ⟨name, parentId, hactsC act hm⟩
          · -- creation succeeded
            rename_i newId stC a2 heq3
            have hstC : stC = stF := by
              have hx := (createFolder_fresh env stF name parentId hf ha).1
              rw [heq3] at hx
              exact hx
            have hactsC : ∀ act ∈ a2, act = Act.createFolderCall name parentId := by
              have hx := (createFolder_fresh env stF name parentId hf ha).2
              rw [heq3] at hx
              exact hx
            subst hstC
            rcases hrec : ensureFolderLoop env rest newId (cum ++ "/" ++ name)
                ⟨stC.config, cacheSet stC.cache (cum ++ "/" ++ name) newId⟩ with
              ⟨r4, st4, a4⟩
            rw [hrec] at h
            simp only [Prod.mk.injEq] at h
            obtain ⟨h1, h2, h3⟩ := h
            subst h1; subst h2; subst h3
            obtain ⟨hcfg, hacts⟩ := ih _ _ _ _ _ _ hrec hf ha
            refine ⟨hcfg, ?_⟩
            intro act hm
            rw [List.append_assoc, List.mem_append] at hm
            rcases hm with hm | hm
            · exact Or.inl (hactsF act hm)
            · rw [List.mem_append] at hm
              rcases hm with hm | hm
              · exact Or.inr ⟨name, parentId, hactsC act hm⟩
              · exact hacts act hm

theorem ensureFolder_fresh (env : Env) (st : St) (folderPath : String)
    (r : Except String String) (st2 : St) (a : List Act)
    (h : ensureFolder env st folderPath = (r, st2, a))
    (hf : tokenFresh env st.config) (ha : st.config.accessToken ≠ "") :
    st2.config = st.config ∧
    ∀ act ∈ a,
      (∃ q, act = Act.findFolderCall q) ∨ ∃ n2 p2, act = Act.createFolderCall n2 p2 :=
  ensureFolderLoop_fresh env _ _ _ st r st2 a h hf ha

/-- A path with no non-empty segments resolves to the root without any
effect. -/
theorem ensureFolder_empty (env : Env) (st : St) (folderPath : String)
    (h : pathSegments folderPath = []) :
    ensureFolder env st folderPath = (.ok "root", st, []) := by
  unfold ensureFolder
  rw [h]
  simp [ensureFolderLoop]

/-! ### Lemmas about permission-setting and link fetching -/

theorem makeFilePublic_fresh (env : Env) (st : St) (f : String)
    (hf : tokenFresh env st.config) (ha : st.config.accessToken ≠ "") :
    makeFilePublic env st f = (st, [Act.permissionCall f]) := by
  unfold makeFilePublic
  rw [ensureValidToken_fresh env st hf ha]
  cases hp : env.permResp <;> simp

theorem getFileInfo_fresh (env : Env) (st : St) (f : String)
    (hf : tokenFresh env st.config) (ha : st.config.accessToken ≠ "") :
    (getFileInfo env st f).2.1 = st ∧ (getFileInfo env st f).2.2 = [Act.infoCall f] := by
  unfold getFileInfo
  rw [ensureValidToken_fresh env st hf ha]
  cases hp : env.infoResp <;> simp

theorem makeFilePublic_acts (env : Env) (st : St) (f : String) :
    ∀ act ∈ (makeFilePublic env st f).2,
      act = Act.permissionCall f ∨ act = Act.refreshCall ∨
        ∃ t, act = Act.persistCallback t := by
  have htk := ensureValidToken_acts env st
  rcases hr : ensureValidToken env st with ⟨r, st2, acts⟩
  rw [hr] at htk
  intro act hm
  cases r with
  | error e =>
      simp [makeFilePublic, hr] at hm
      exact Or.inr (htk act hm)
  | ok tok =>
      cases hp : env.permResp with
      | error e2 =>
          simp [makeFilePublic, hr, hp] at hm
          rcases hm with hm | hm
          · exact Or.inr (htk act hm)
          · exact Or.inl hm
      | ok u =>
          simp [makeFilePublic, hr, hp] at hm
          rcases hm with hm | hm
          · exact Or.inr (htk act hm)
          · exact Or.inl hm

theorem getFileInfo_acts (env : Env) (st : St) (f : String) :
    ∀ act ∈ (getFileInfo env st f).2.2,
      act = Act.infoCall f ∨ act = Act.refreshCall ∨
        ∃ t, act = Act.persistCallback t := by
  have htk := ensureValidToken_acts env st
  rcases hr : ensureValidToken env st with ⟨r, st2, acts⟩
  rw [hr] at htk
  intro act hm
  cases r with
  | error e =>
      simp [getFileInfo, hr] at hm
      exact Or.inr (htk act hm)
  | ok tok =>
      cases hp : env.infoResp with
      | error e2 =>
          simp [getFileInfo, hr, hp] at hm
          rcases hm with hm | hm
          · exact Or.inr (htk act hm)
          · exact Or.inl hm
      | ok info =>
          simp [getFileInfo, hr, hp] at hm
          rcases hm with hm | hm
          · exact Or.inr (htk act hm)
          · exact Or.inl hm

/-- When the link fetch fails or carries no links, `getFileInfo` yields
the empty info object. -/
theorem getFileInfo_none (env : Env) (st : St) (f : String)
    (h : (∃ e, env.infoResp = .error e) ∨ env.infoResp = .ok ⟨none, none⟩) :
    (getFileInfo env st f).1 = ⟨none, none⟩ := by
  rcases hr : ensureValidToken env st with ⟨r, st2, acts⟩
  rcases h with ⟨e, he⟩ | he <;>
    cases r <;> simp [getFileInfo, hr, he]

/-- Once the token and folder are resolved, `uploadFile` performs the
upload request with that token and folder id; everything after it is
permission/info traffic (and their token checks), never another upload
request. -/
theorem uploadFile_acts (env : Env) (st : St) (file : FileV) (folderPath : String)
    (tok : String) (st1 : St) (a1 : List Act) (fid : String) (st2 : St) (a2 : List Act)
    (hTok : ensureValidToken env st = (.ok tok, st1, a1))
    (hFolder : ensureFolder env st1 folderPath = (.ok fid, st2, a2)) :
    ∃ tail, (uploadFile env st file folderPath).acts =
        a1 ++ a2 ++ Act.uploadCall tok fid :: tail ∧
      ∀ t2 f3, Act.uploadCall t2 f3 ∉ tail := by
  rcases hUp : env.uploadResp with e | ⟨s, i⟩
  · refine ⟨[], ?_, by simp⟩
    simp [uploadFile, hTok, hFolder, hUp]
  · by_cases hs : s ≠ 200
    · refine ⟨[], ?_, by simp⟩
      simp [uploadFile, hTok, hFolder, hUp, hs]
    · cases i with
      | none =>
          refine ⟨[], ?_, by simp⟩
          simp [uploadFile, hTok, hFolder, hUp, hs]
      | some fileId =>
          refine ⟨(makeFilePublic env st2 fileId).2 ++
            (getFileInfo env (makeFilePublic env st2 fileId).1 fileId).2.2, ?_, ?_⟩
          · simp [uploadFile, hTok, hFolder, hUp, hs]
          · intro t2 f3 hx
            rcases List.mem_append.1 hx with hx | hx
            · rcases makeFilePublic_acts env st2 fileId _ hx with hbad | hbad | ⟨x, hbad⟩ <;>
                simp at hbad
            · rcases getFileInfo_acts env _ fileId _ hx with hbad | hbad | ⟨x, hbad⟩ <;>
                simp at hbad

/-- The fresh-token variant: after the upload call the only actions are
the permission call and the link fetch. -/
theorem uploadFile_acts_fresh (env : Env) (st : St) (file : FileV) (folderPath : String)
    (tok : String) (st1 : St) (a1 : List Act) (fid : String) (st2 : St) (a2 : List Act)
    (hTok : ensureValidToken env st = (.ok tok, st1, a1))
    (hFolder : ensureFolder env st1 folderPath = (.ok fid, st2, a2))
    (hf : tokenFresh env st2.config) (ha : st2.config.accessToken ≠ "") :
    ∃ tail, (uploadFile env st file folderPath).acts =
        a1 ++ a2 ++ Act.uploadCall tok fid :: tail ∧
      ∀ act ∈ tail, (∃ x, act = Act.permissionCall x) ∨ ∃ x, act = Act.infoCall x := by
  rcases hUp : env.uploadResp with e | ⟨s, i⟩
  · refine ⟨[], ?_, by simp⟩
    simp [uploadFile, hTok, hFolder, hUp]
  · by_cases hs : s ≠ 200
    · refine ⟨[], ?_, by simp⟩
      simp [uploadFile, hTok, hFolder, hUp, hs]
    · cases i with
      | none =>
          refine ⟨[], ?_, by simp⟩
          simp [uploadFile, hTok, hFolder, hUp, hs]
      | some fileId =>
          have hmp := makeFilePublic_fresh env st2 fileId hf ha
          have hgf := getFileInfo_fresh env st2 fileId hf ha
          refine ⟨[Act.permissionCall fileId, Act.infoCall fileId], ?_, ?_⟩
          · simp [uploadFile, hTok, hFolder, hUp, hs, hmp, hgf.2]
          · intro act hx
            rcases List.mem_cons.1 hx with hx | hx
            · exact Or.inl ⟨fileId, hx⟩
            · rcases List.mem_cons.1 hx with hx | hx
              · exact Or.inr ⟨fileId, hx⟩
              · simp at hx

/-! ### Claim theorems -/

/-- C5: for every byte array (empty or spanning several chunks),
base64-decoding the string produced by `arrayBufferToBase64` reproduces
the original bytes exactly, and the encoder processes its input in chunks
of at most 8192 bytes rather than one bulk conversion. -/
theorem claim5_base64_roundtrip (bytes : List Nat) (h : ∀ b ∈ bytes, b < 256) :
    atobL (arrayBufferToBase64 bytes).data = some bytes ∧
    ∀ c ∈ chunksOf bytes, c.length ≤ 8192 := by
  constructor
  · show atobL (btoa (chunksOf bytes).flatten) = some bytes
    rw [chunksOf_flatten bytes.length bytes le_rfl]
    exact atobL_btoa bytes h
  · exact chunksOf_bounded bytes.length bytes le_rfl

/-- Witness for C5 at the empty array and at an array longer than one
8192-byte chunk. -/
theorem claim5_base64_roundtrip_witness :
    (atobL (arrayBufferToBase64 []).data = some [] ∧
      ∀ c ∈ chunksOf [], c.length ≤ 8192) ∧
    (atobL (arrayBufferToBase64 (List.replicate 9000 65)).data =
        some (List.replicate 9000 65) ∧
      ∀ c ∈ chunksOf (List.replicate 9000 65), c.length ≤ 8192) :=
  ⟨claim5_base64_roundtrip [] (by simp),
   claim5_base64_roundtrip (List.replicate 9000 65)
     (fun b hb => by rw [List.eq_of_mem_replicate hb]; omega)⟩

/-- C6: for every folder name (quotes and backslashes included), the
query built by `findFolder` around `escapeQueryValue` parses back to a
literal match on exactly the original name, with the rest of the filter
(parent containment, mime type, trash flag) structurally intact: a quote
in the name cannot alter the query. -/
theorem claim6_query_injection_safe (name parentId : String) :
    (findFolderQuery name parentId).data =
      ("name=" ++ String.singleton quoteChar).data ++
        ((escapeQueryValue name).data ++ quoteChar :: (querySuffix parentId).data) ∧
    parseQuoted ((escapeQueryValue name).data ++ quoteChar :: (querySuffix parentId).data) =
      some (name.data, (querySuffix parentId).data) := by
  constructor
  · simp only [findFolderQuery, querySuffix, String.data_append]
    simp [String.singleton]
  · exact parseQuoted_escaped name.data (querySuffix parentId).data

/-- C7: after a successful `ensureFolder`, calling it again with the same
path returns the same folder id, issues no lookup or creation call, and
leaves the state unchanged: every cumulative prefix is served from the
cache.  Well-formedness of the provider is needed only in that a created
folder id is not the empty string (which the JS truthiness check would
treat as a cache miss). -/
theorem claim7_ensureFolder_cached_second_call (env : Env) (st : St)
    (folderPath fid : String) (st2 : St) (a : List Act)
    (hC : ∀ n2 p2 s i, env.createResp n2 p2 = Except.ok (s, i) → i ≠ "")
    (h : ensureFolder env st folderPath = (.ok fid, st2, a)) :
    ensureFolder env st2 folderPath = (.ok fid, st2, []) :=
  ensureFolder_replay env st folderPath fid st2 a hC h

/-- C8: `ensureFolder` resolution only depends on the non-empty segments
of the path, so paths with redundant separators resolve exactly like
their normalized form. -/
theorem claim8_redundant_separators (env : Env) (st : St) (p q : String)
    (h : pathSegments p = pathSegments q) :
    ensureFolder env st p = ensureFolder env st q := by
  unfold ensureFolder
  rw [h]

/-- C10: a path with no non-empty segments resolves to the root folder id
with no provider call and no cache write, and an upload with such a
destination sends the upload request with the root parent folder. -/
theorem claim10_empty_path_root (env : Env) (st : St) (file : FileV)
    (folderPath : String) (h : pathSegments folderPath = []) :
    ensureFolder env st folderPath = (.ok "root", st, []) ∧
    ∀ t f2, Act.uploadCall t f2 ∈ (uploadFile env st file folderPath).acts →
      f2 = "root" := by
  refine ⟨ensureFolder_empty env st folderPath h, ?_⟩
  intro t f2 hm
  have htk := ensureValidToken_acts env st
  rcases hTok : ensureValidToken env st with ⟨r, st1, a1⟩
  rw [hTok] at htk
  have noUp1 : Act.uploadCall t f2 ∉ a1 := by
    intro hx
    rcases htk _ hx with hbad | ⟨tkn, hbad⟩ <;> simp at hbad
  cases r with
  | error e =>
      simp only [uploadFile, hTok] at hm
      exact absurd hm noUp1
  | ok tok =>
      have hF := ensureFolder_empty env st1 folderPath h
      obtain ⟨tail, hacts, hnoup⟩ :=
        uploadFile_acts env st file folderPath tok st1 a1 "root" st1 [] hTok hF
      rw [hacts, List.append_nil] at hm
      rcases List.mem_append.1 hm with hm | hm
      · exact absurd hm noUp1
      · rcases List.mem_cons.1 hm with hm | hm
        · simp at hm
          exact hm.2
        · exact absurd hm (hnoup t f2)

/-- C1: when the token, folder resolution, upload, permission and
link-fetch calls all succeed, `uploadFile` emits exactly the four stages
`preparing(10)`, `uploading(30)`, `setting-permission(70)`,
`complete(100)` in that order — strictly increasing — and returns a
non-null result. -/
theorem claim1_success_stage_sequence (env : Env) (st : St) (file : FileV)
    (folderPath tok : String) (st1 : St) (a1 : List Act) (fid : String) (st2 : St)
    (a2 : List Act) (fileId : String) (info : FileInfo)
    (hTok : ensureValidToken env st = (.ok tok, st1, a1))
    (hFolder : ensureFolder env st1 folderPath = (.ok fid, st2, a2))
    (hUp : env.uploadResp = .ok (200, some fileId))
    (_hPerm : env.permResp = .ok ())
    (_hInfo : env.infoResp = .ok info) :
    (uploadFile env st file folderPath).progress =
      [{ stage := .preparing, message := "Preparing upload...", progress := 10 },
       { stage := .uploading, message := "Uploading to Google Drive...", progress := 30 },
       { stage := .settingPermission, message := "Setting public access...", progress := 70 },
       { stage := .complete, message := "Upload complete!", progress := 100 }] ∧
    (uploadFile env st file folderPath).result ≠ none := by
  constructor <;>
    simp [uploadFile, hTok, hFolder, hUp, preparingEvent, uploadingEvent,
      permissionEvent, completeEvent]

/-- C4: when everything up to the upload succeeds but the
permission-setting call fails, `uploadFile` swallows the failure: it
still emits the `complete` stage (the full four-stage sequence, no
`error` stage) and returns a non-null result. -/
theorem claim4_permission_failure_swallowed (env : Env) (st : St) (file : FileV)
    (folderPath tok : String) (st1 : St) (a1 : List Act) (fid : String) (st2 : St)
    (a2 : List Act) (fileId e : String)
    (hTok : ensureValidToken env st = (.ok tok, st1, a1))
    (hFolder : ensureFolder env st1 folderPath = (.ok fid, st2, a2))
    (hUp : env.uploadResp = .ok (200, some fileId))
    (_hPerm : env.permResp = .error e) :
    (uploadFile env st file folderPath).progress =
      [preparingEvent, uploadingEvent, permissionEvent, completeEvent] ∧
    (∀ p ∈ (uploadFile env st file folderPath).progress, p.stage ≠ Stage.error) ∧
    (uploadFile env st file folderPath).result ≠ none := by
  refine ⟨?_, ?_, ?_⟩ <;>
    simp [uploadFile, hTok, hFolder, hUp, preparingEvent, uploadingEvent,
      permissionEvent, completeEvent]

/-- C9: when the upload succeeds but the link fetch fails or returns no
links, the result is still non-null and carries view and download links
synthesized from the file id and the fixed URL templates; both are
non-empty. -/
theorem claim9_link_fallback (env : Env) (st : St) (file : FileV)
    (folderPath tok : String) (st1 : St) (a1 : List Act) (fid : String) (st2 : St)
    (a2 : List Act) (fileId : String)
    (hTok : ensureValidToken env st = (.ok tok, st1, a1))
    (hFolder : ensureFolder env st1 folderPath = (.ok fid, st2, a2))
    (hUp : env.uploadResp = .ok (200, some fileId))
    (hInfo : (∃ e, env.infoResp = .error e) ∨ env.infoResp = .ok ⟨none, none⟩) :
    ∃ r, (uploadFile env st file folderPath).result = some r ∧
      r.fileId = fileId ∧
      r.webViewLink = "https://drive.google.com/file/d/" ++ fileId ++ "/view" ∧
      r.webContentLink = "https://drive.google.com/uc?export=view&id=" ++ fileId ∧
      r.webViewLink ≠ "" ∧ r.webContentLink ≠ "" := by
  have hgi := getFileInfo_none env (makeFilePublic env st2 fileId).1 fileId hInfo
  have hne1 : "https://drive.google.com/file/d/" ++ fileId ++ "/view" ≠ "" := by
    intro hx
    have h2 := congrArg String.length hx
    rw [String.length_append, String.length_append] at h2
    have h3 : ("https://drive.google.com/file/d/" : String).length = 32 := rfl
    have h4 : ("/view" : String).length = 5 := rfl
    have h5 : ("" : String).length = 0 := rfl
    omega
  have hne2 : "https://drive.google.com/uc?export=view&id=" ++ fileId ≠ "" := by
    intro hx
    have h2 := congrArg String.length hx
    rw [String.length_append] at h2
    have h3 : ("https://drive.google.com/uc?export=view&id=" : String).length = 43 := rfl
    have h5 : ("" : String).length = 0 := rfl
    omega
  have hrun : (uploadFile env st file folderPath).result = some
      { fileId := fileId,
        webViewLink := "https://drive.google.com/file/d/" ++ fileId ++ "/view",
        webContentLink := "https://drive.google.com/uc?export=view&id=" ++ fileId,
        fileName := file.name,
        mimeType := file.mimeType } := by
    simp [uploadFile, hTok, hFolder, hUp, hgi, orFallback]
  exact ⟨_, hrun, rfl, rfl, rfl, hne1, hne2⟩

/-- C2: a failure at token acquisition, folder resolution or the upload
call (a thrown transport error, a non-200 status, or a response without a
file id) is caught: `uploadFile` returns null and the progress trace ends
in exactly one `error`-stage event carrying the failure message, with no
`setting-permission` or `complete` event ever emitted.  (`uploadFile` is
a total function: no exception propagates to the caller.) -/
theorem claim2_failure_single_error (env : Env) (st : St) (file : FileV)
    (folderPath : String) (h : preUploadFailure env st folderPath) :
    (uploadFile env st file folderPath).result = none ∧
    ∃ e, (uploadFile env st file folderPath).progress = [preparingEvent, errorEvent e] ∨
      (uploadFile env st file folderPath).progress =
        [preparingEvent, uploadingEvent, errorEvent e] := by
  rcases h with ⟨e, st1, a1, hTok⟩ | ⟨tok, st1, a1, hTok, hRest⟩
  · refine ⟨?_, e, Or.inl ?_⟩ <;> simp [uploadFile, hTok]
  · rcases hRest with ⟨e, st2, a2, hFolder⟩ | ⟨fid, st2, a2, hFolder, hUp⟩
    · refine ⟨?_, e, Or.inl ?_⟩ <;> simp [uploadFile, hTok, hFolder]
    · rcases hUp with ⟨e, hUp⟩ | ⟨s, i, hUp, hBad⟩
      · refine ⟨?_, e, Or.inr ?_⟩ <;> simp [uploadFile, hTok, hFolder, hUp]
      · rcases hBad with hs | hi
        · refine ⟨?_, "Upload failed: " ++ toString s, Or.inr ?_⟩ <;>
            simp [uploadFile, hTok, hFolder, hUp, hs]
        · subst hi
          by_cases hs : s ≠ 200
          · refine ⟨?_, "Upload failed: " ++ toString s, Or.inr ?_⟩ <;>
              simp [uploadFile, hTok, hFolder, hUp, hs]
          · refine ⟨?_, "Upload response missing file ID", Or.inr ?_⟩ <;>
              simp [uploadFile, hTok, hFolder, hUp, hs]

/-- C3: with an expired token and a valid refresh token, `uploadFile`
performs exactly one refresh call, invokes (and awaits) the persistence
callback with the new tokens, and only then sends the upload request,
which carries the refreshed access token.  Hypotheses: the stored expiry
and refresh token are truthy, the expiry lies in the past, the refresh
succeeds with a non-empty access token whose expiry is outside the
refresh margin, a persistence callback is installed, and folder
resolution (from the refreshed state) succeeds. -/
theorem claim3_refresh_once_before_upload (env : Env) (st : St) (file : FileV)
    (folderPath : String) (nt : OAuthTokens) (fid : String) (st2 : St) (a2 : List Act)
    (h1 : st.config.tokenExpiresAt ≠ 0)
    (h2 : st.config.refreshToken ≠ "")
    (h3 : st.config.tokenExpiresAt ≤ env.now)
    (h4 : env.refreshResult = .ok nt)
    (h5 : st.config.hasOnTokenRefresh = true)
    (h6 : nt.accessToken ≠ "")
    (h7 : isTokenExpired env nt.expiresAt = false)
    (h8 : ensureFolder env (refreshState st nt) folderPath = (.ok fid, st2, a2)) :
    ∃ post,
      (uploadFile env st file folderPath).acts =
        Act.refreshCall :: Act.persistCallback nt ::
          (a2 ++ Act.uploadCall nt.accessToken fid :: post) ∧
      Act.refreshCall ∉ a2 ∧ Act.refreshCall ∉ post ∧
      (∀ t2 f3, Act.uploadCall t2 f3 ∉ a2) ∧
      (∀ x, Act.persistCallback x ∉ a2) ∧ ∀ x, Act.persistCallback x ∉ post := by
  have hexp : isTokenExpired env st.config.tokenExpiresAt = true := by
    simp only [isTokenExpired, decide_eq_true_eq]
    omega
  have hTok := ensureValidToken_refresh env st nt h1 h2 hexp h4 h5 h6
  have hfresh : tokenFresh env (refreshState st nt).config := Or.inr (Or.inr h7)
  have ha : (refreshState st nt).config.accessToken ≠ "" := h6
  obtain ⟨hcfg2, hacts2⟩ :=
    ensureFolder_fresh env (refreshState st nt) folderPath _ _ _ h8 hfresh ha
  have hfresh2 : tokenFresh env st2.config := by rw [hcfg2]; exact hfresh
  have ha2 : st2.config.accessToken ≠ "" := by rw [hcfg2]; exact ha
  obtain ⟨tail, hacts, htail⟩ := uploadFile_acts_fresh env st file folderPath
    nt.accessToken (refreshState st nt) [Act.refreshCall, Act.persistCallback nt]
    fid st2 a2 hTok h8 hfresh2 ha2
  refine ⟨tail, ?_, ?_, ?_, ?_, ?_, ?_⟩
  · rw [hacts]
    simp
  · intro hx
    rcases hacts2 _ hx with ⟨q, hq⟩ | ⟨n2, p2, hq⟩ <;> simp at hq
  · intro hx
    rcases htail _ hx with ⟨x, hq⟩ | ⟨x, hq⟩ <;> simp at hq
  · intro t2 f3 hx
    rcases hacts2 _ hx with ⟨q, hq⟩ | ⟨n2, p2, hq⟩ <;> simp at hq
  · intro x hx
    rcases hacts2 _ hx with ⟨q, hq⟩ | ⟨n2, p2, hq⟩ <;> simp at hq
  · intro x hx
    rcases htail _ hx with ⟨y, hq⟩ | ⟨y, hq⟩ <;> simp at hq

/-! ### Witnesses -/

/-- Witness for C1: a fully successful upload of a concrete file. -/
theorem claim1_witness :
    (uploadFile sampleEnv sampleSt sampleFile "").progress =
      [{ stage := .preparing, message := "Preparing upload...", progress := 10 },
       { stage := .uploading, message := "Uploading to Google Drive...", progress := 30 },
       { stage := .settingPermission, message := "Setting public access...", progress := 70 },
       { stage := .complete, message := "Upload complete!", progress := 100 }] ∧
    (uploadFile sampleEnv sampleSt sampleFile "").result ≠ none :=
  claim1_success_stage_sequence sampleEnv sampleSt sampleFile "" "tok" sampleSt []
    "root" sampleSt [] "file1" ⟨some "viewLink", some "contentLink"⟩ rfl (by decide)
    rfl rfl rfl

/-- Witness for C2: a failure injected at the upload call. -/
theorem claim2_witness :
    (uploadFile sampleEnvUploadFail sampleSt sampleFile "").result = none ∧
    ∃ e, (uploadFile sampleEnvUploadFail sampleSt sampleFile "").progress =
        [preparingEvent, errorEvent e] ∨
      (uploadFile sampleEnvUploadFail sampleSt sampleFile "").progress =
        [preparingEvent, uploadingEvent, errorEvent e] :=
  claim2_failure_single_error sampleEnvUploadFail sampleSt sampleFile ""
    (Or.inr ⟨"tok", sampleSt, [], rfl,
      Or.inr ⟨"root", sampleSt, [], by decide, Or.inl ⟨"boom", rfl⟩⟩⟩)

/-- Witness for C3: an upload with an expired token (expiry 500, now
1000). -/
theorem claim3_witness :
    ∃ post,
      (uploadFile sampleEnv expiredSt sampleFile "").acts =
        Act.refreshCall :: Act.persistCallback sampleTokens ::
          ([] ++ Act.uploadCall sampleTokens.accessToken "root" :: post) ∧
      Act.refreshCall ∉ ([] : List Act) ∧ Act.refreshCall ∉ post ∧
      (∀ t2 f3, Act.uploadCall t2 f3 ∉ ([] : List Act)) ∧
      (∀ x, Act.persistCallback x ∉ ([] : List Act)) ∧
      ∀ x, Act.persistCallback x ∉ post :=
  claim3_refresh_once_before_upload sampleEnv expiredSt sampleFile "" sampleTokens
    "root" (refreshState expiredSt sampleTokens) [] (by decide) (by decide) (by decide)
    rfl rfl (by decide) rfl (by decide)

/-- Witness for C4: a failure injected only at the permission step. -/
theorem claim4_witness :
    (uploadFile sampleEnvPermFail sampleSt sampleFile "").progress =
      [preparingEvent, uploadingEvent, permissionEvent, completeEvent] ∧
    (∀ p ∈ (uploadFile sampleEnvPermFail sampleSt sampleFile "").progress,
      p.stage ≠ Stage.error) ∧
    (uploadFile sampleEnvPermFail sampleSt sampleFile "").result ≠ none :=
  claim4_permission_failure_swallowed sampleEnvPermFail sampleSt sampleFile ""
    "tok" sampleSt [] "root" sampleSt [] "file1" "denied" rfl (by decide) rfl rfl

/-- Witness for C7: the second `ensureFolder` call for `"A/B"` is served
from the cache built by the first. -/
theorem claim7_witness :
    ensureFolder sampleEnv cachedSt "A/B" = (.ok "folder1", cachedSt, []) :=
  claim7_ensureFolder_cached_second_call sampleEnv sampleSt "A/B" "folder1" cachedSt
    [Act.findFolderCall (findFolderQuery "A" "root"),
     Act.findFolderCall (findFolderQuery "B" "folder1")]
    (by
      intro n2 p2 s i h
      injection h with h2
      injection h2 with h3 h4
      rw [← h4]
      decide)
    (by decide)

/-- Witness for C8: `"A//B/"` resolves exactly like `"A/B"`. -/
theorem claim8_witness :
    ensureFolder sampleEnv sampleSt "A//B/" = ensureFolder sampleEnv sampleSt "A/B" :=
  claim8_redundant_separators sampleEnv sampleSt "A//B/" "A/B" (by decide)

/-- Witness for C9: a failure injected at the link fetch. -/
theorem claim9_witness :
    ∃ r, (uploadFile sampleEnvInfoFail sampleSt sampleFile "").result = some r ∧
      r.fileId = "file1" ∧
      r.webViewLink = "https://drive.google.com/file/d/" ++ "file1" ++ "/view" ∧
      r.webContentLink = "https://drive.google.com/uc?export=view&id=" ++ "file1" ∧
      r.webViewLink ≠ "" ∧ r.webContentLink ≠ "" :=
  claim9_link_fallback sampleEnvInfoFail sampleSt sampleFile "" "tok" sampleSt []
    "root" sampleSt [] "file1" rfl (by decide) rfl (Or.inl ⟨"nope", rfl⟩)

/-- Witness for C10: the all-separator path `"//"`. -/
theorem claim10_witness :
    ensureFolder sampleEnv sampleSt "//" = (.ok "root", sampleSt, []) ∧
    ∀ t f2, Act.uploadCall t f2 ∈ (uploadFile sampleEnv sampleSt sampleFile "//").acts →
      f2 = "root" :=
  claim10_empty_path_root sampleEnv sampleSt sampleFile "//" (by decide)

end Embedder
